import Mathlib

/-!
Shallow embedding of the A/B-testing platform core
(`ab_test.py`, `database.py`, `business.py`).

Applicant records live in a MongoDB collection; we model the collection as a
`List Record`.  Timestamps (`createdAt`) are integers measured in hours, so a
calendar day `d : ℤ` covers the half-open window `[24d, 24(d+1))`.  The process-wide
pseudorandom generator (`random.seed` / `random.shuffle`) is modelled as an
explicit state of type `ℕ` threaded through the operations, with a
deterministic state-transition function and a Fisher-Yates shuffle; `random.seed s`
overwrites the state with `s`.
-/

namespace ABTest

/-- An applicant document.  `inExperiment` and `group` are `Option`s because the
corresponding Mongo fields are absent until assignment sets them (`$set`) and
after a reset removes them (`$unset`). -/
structure Record where
  rid : ℕ
  createdAt : ℤ
  admissionsQuiz : String
  inExperiment : Option Bool := none
  group : Option String := none
deriving DecidableEq, Repr, Inhabited

/-- Model of the global pseudorandom generator state transition
(one draw of `random`). -/
def rngNext (s : ℕ) : ℕ :=
  (6364136223846793005 * s + 1442695040888963407) % 2 ^ 64

/-- Fisher-Yates shuffle, fuel-indexed so the recursion is structural: draw a
random index, move that element to the front, recurse on the rest. -/
def shuffleGo {α : Type} : ℕ → ℕ → List α → List α × ℕ
  | 0, s, l => (l, s)
  | _ + 1, s, [] => ([], s)
  | fuel + 1, s, a :: as =>
      let l := a :: as
      let s' := rngNext s
      let i := s' % l.length
      let rest := shuffleGo fuel s' (l.eraseIdx i)
      (l.getD i a :: rest.1, rest.2)

/-- Model of `random.shuffle`: permute the list, returning the new generator
state. -/
def shuffle {α : Type} (s : ℕ) (l : List α) : List α × ℕ :=
  shuffleGo l.length s l

/-- State available to `Experiment`: the global generator state and the
`applicants` collection. -/
structure ExpState where
  rng : ℕ
  store : List Record
deriving DecidableEq, Repr

def ctrlLabel : String := "No email (control)"

def trmtLabel : String := "email (treatment)"

/-- The selection query of `_assign_groups_for_date` / `_count_users_for_date`:
`createdAt` within the day (`$gte` start, `$lt` start + 1 day) and
`admissionsQuiz == "incomplete"`. -/
def eligibleQuery (date : ℤ) (r : Record) : Bool :=
  decide (24 * date ≤ r.createdAt) && decide (r.createdAt < 24 * (date + 1))
    && (r.admissionsQuiz == "incomplete")

/-- The `$set` of assignment: mark the record in-experiment with the given
group label. -/
def setFields (r : Record) (grp : String) : Record :=
  { r with inExperiment := some true, group := some grp }

/-- Model of `collection.update_one({"_id": rid}, {"$set": ...})`: update the
first record with the given id, returning the new store, the matched count and
the modified count (Mongo reports a modification only when the document
actually changes). -/
def updateOne : List Record → ℕ → String → List Record × ℕ × ℕ
  | [], _, _ => ([], 0, 0)
  | r :: rest, rid, grp =>
      if r.rid = rid then
        let r' := setFields r grp
        (r' :: rest, 1, if r' = r then 0 else 1)
      else
        let u := updateOne rest rid grp
        (r :: u.1, u.2.1, u.2.2)

/-- The update loop of `_assign_groups_for_date` over one group's user list. -/
def applyUpdates (store : List Record) (users : List Record) (grp : String) :
    List Record × ℕ × ℕ :=
  users.foldl
    (fun acc u =>
      let r := updateOne acc.1 u.rid grp
      (r.1, acc.2.1 + r.2.1, acc.2.2 + r.2.2))
    (store, 0, 0)

/-- The dictionary returned by `_assign_groups_for_date`. -/
structure AssignResult where
  n : ℕ
  n_modified : ℕ
  control_size : ℕ
  treatment_size : ℕ
deriving DecidableEq, Repr

/-- `Experiment._assign_groups_for_date`: select the day's incomplete-quiz
cohort, shuffle it, split at the midpoint into control (first half) and
treatment (second half), and persist both fields for every selected record. -/
def assign_groups_for_date (date : ℤ) (st : ExpState) : AssignResult × ExpState :=
  let users := st.store.filter (eligibleQuery date)
  let shuffled := (shuffle st.rng users).1
  let midpoint := shuffled.length / 2
  let control := shuffled.take midpoint
  let treatment := shuffled.drop midpoint
  let u1 := applyUpdates st.store control ctrlLabel
  let u2 := applyUpdates u1.1 treatment trmtLabel
  (⟨u1.2.1 + u2.2.1, u1.2.2 + u2.2.2, control.length, treatment.length⟩,
   ⟨(shuffle st.rng users).2, u2.1⟩)

/-- `Experiment._count_users_for_date`: same query, no mutation, returns the
count only (under the key `"count"`). -/
def count_users_for_date (date : ℤ) (st : ExpState) : ℕ × ExpState :=
  (st.store.countP (eligibleQuery date), st)

/-- A per-day result dictionary: assignment days carry the keys
`n`/`n_modified`/`control_size`/`treatment_size`, counting days carry only the
key `count`. -/
inductive DayResult : Type
  | assigned (r : AssignResult) : DayResult
  | counted (count : ℕ) : DayResult
deriving DecidableEq, Repr

/-- Model of `day.get('n', 0)`: the `counted` dictionary has no key `n`, so the
default `0` is returned. -/
def DayResult.getN : DayResult → ℕ
  | .assigned r => r.n
  | .counted _ => 0

structure GroupStats where
  total : ℕ
  completed : ℕ
  completion_rate : ℚ
deriving DecidableEq, Repr

structure Stats where
  control_group : GroupStats
  treatment_group : GroupStats
  difference : ℚ
deriving DecidableEq, Repr

def inGroup (g : String) (r : Record) : Bool :=
  (r.inExperiment == some true) && (r.group == some g)

def inGroupCompleted (g : String) (r : Record) : Bool :=
  inGroup g r && (r.admissionsQuiz == "complete")

/-- `Experiment._calculate_experiment_stats`: per-group totals, completed
counts, completion rates (`0` when the group is empty) and the signed
difference treatment − control. -/
def calculate_experiment_stats (store : List Record) : Stats :=
  let cc := store.countP (inGroup ctrlLabel)
  let tc := store.countP (inGroup trmtLabel)
  let ccd := store.countP (inGroupCompleted ctrlLabel)
  let tcd := store.countP (inGroupCompleted trmtLabel)
  let cr : ℚ := if cc > 0 then (ccd : ℚ) / (cc : ℚ) else 0
  let tr : ℚ := if tc > 0 then (tcd : ℚ) / (tc : ℚ) else 0
  { control_group := ⟨cc, ccd, cr⟩
    treatment_group := ⟨tc, tcd, tr⟩
    difference := tr - cr }

/-- The list of dates visited by `run_experiment`: the loop
`current = end - days; while current < end: ...; current += 1 day`.  When
`days ≤ 0` the loop body never runs. -/
def dateRange (endDate : ℤ) (days : ℤ) : List ℤ :=
  (List.range days.toNat).map (fun i => endDate - days + i)

/-- One iteration of the per-day loop of `run_experiment`. -/
def runStep (assignment : Bool) (acc : List (ℤ × DayResult) × ExpState) (date : ℤ) :
    List (ℤ × DayResult) × ExpState :=
  if assignment then
    let a := assign_groups_for_date date acc.2
    (acc.1 ++ [(date, DayResult.assigned a.1)], a.2)
  else
    let c := count_users_for_date date acc.2
    (acc.1 ++ [(date, DayResult.counted c.1)], c.2)

/-- The dictionary returned by `run_experiment`. -/
structure RunResult where
  days : ℤ
  total_assigned : ℕ
  daily_results : List (ℤ × DayResult)
  statistics : Stats
deriving DecidableEq, Repr

/-- `Experiment.run_experiment`: when `assignment` is set, reseed the global
generator with `seed`; iterate over the date range, assigning or counting per
day; sum `day.get('n', 0)` into `total_assigned`; compute final statistics. -/
def run_experiment (days : ℤ) (assignment : Bool) (seed : ℕ) (today : ℤ)
    (st : ExpState) : RunResult × ExpState :=
  let st0 := if assignment then { st with rng := seed } else st
  let run := (dateRange today days).foldl (runStep assignment) ([], st0)
  let total := (run.1.map (fun p => p.2.getN)).sum
  ({ days := days, total_assigned := total, daily_results := run.1
     statistics := calculate_experiment_stats run.2.store }, run.2)

/-- The filter of `Reset.reset_database`: `{"inExperiment": True}`. -/
def resetMatch (r : Record) : Bool := r.inExperiment == some true

/-- The `$unset` of `Reset.reset_database`: remove both experiment fields. -/
def unsetFields (r : Record) : Record :=
  { r with inExperiment := none, group := none }

structure UpdateSummary where
  matched : ℕ
  modified : ℕ
deriving DecidableEq, Repr

/-- `Reset.reset_database` on one collection: `update_many` of the `$unset`
over every record matching `{"inExperiment": True}`.  Every matched document is
modified because `$unset` removes a field that is present. -/
def reset_database (store : List Record) : List Record × UpdateSummary :=
  (store.map (fun r => if resetMatch r then unsetFields r else r),
   ⟨store.countP resetMatch, store.countP resetMatch⟩)

/-! Contingency-table construction (`MongoRepository.get_contingency_table`).
The pandas frame built from `find({"inExperiment": True})` is the list of
in-experiment records; `dropna()` keeps only rows where both optional fields
are present (a record returned by that query always has `inExperiment`, so the
condition reduces to `group` being present). -/

/-- The value in the `group` column of a row. -/
def groupOf (r : Record) : String := r.group.getD ""

/-- Model of `pandas.Series.unique`: the distinct values in order of first
appearance. -/
def firstUniques (l : List String) : List String :=
  l.foldl (fun acc a => if a ∈ acc then acc else acc ++ [a]) []

/-- The frame `df`: in-experiment records surviving `dropna()`. -/
def ctFilter (store : List Record) : List Record :=
  (store.filter (fun r => r.inExperiment == some true)).filter
    (fun r => r.group.isSome)

/-- The per-group synthetic rows of the `'completed' not in unique` branch:
for each distinct group value, a copy of that group's first row with
`admissionsQuiz` set to `"completed"`. -/
def ctBaseRows (df : List Record) : List Record :=
  (firstUniques (df.map groupOf)).filterMap
    (fun g => (df.find? (fun r => groupOf r == g)).map
      (fun r => { r with admissionsQuiz := "completed" }))

/-- All synthetic rows: the per-group rows padded with copies of the first row
of the frame (`df.iloc[0]`, given as `r0`) until there are at least 3. -/
def ctNewRows (df : List Record) (r0 : Record) : List Record :=
  ctBaseRows df
    ++ List.replicate (3 - (ctBaseRows df).length)
        { r0 with admissionsQuiz := "completed" }

/-- The rows from which `get_contingency_table` builds its crosstab.  On an
empty frame the Python code raises (column access / `iloc[0]` on an empty
frame), modelled as `none`. -/
def get_contingency_df (store : List Record) : Option (List Record) :=
  let df := ctFilter store
  if df.isEmpty then none
  else if "completed" ∈ df.map (fun r => r.admissionsQuiz) then some df
  else some (df ++ ctNewRows df df.headI)

/-- One cell of `pd.crosstab(index=df["group"], columns=df["admissionsQuiz"])`. -/
def crosstab (df : List Record) (g q : String) : ℕ :=
  df.countP (fun r => (groupOf r == g) && (r.admissionsQuiz == q))

/-- `MongoRepository.get_contingency_table`: the crosstab of the (possibly
augmented) frame, as a cell-count function. -/
def get_contingency_table (store : List Record) : Option (String → String → ℕ) :=
  (get_contingency_df store).map (fun df g q => crosstab df g q)

/-! Statistics engine (`StatsBuilder.calculate_cdf_pct`).  The historical
series is the list of daily incomplete-quiz counts; arithmetic on it is exact
(rationals).  The external routine `scipy.stats.norm.cdf` is a collaborator:
the model records the parameters handed to it, since only the degenerate
branches matter here. -/

/-- Result of `calculate_cdf_pct`: either a NaN silently produced by the
degenerate branches (pandas sample std is NaN for fewer than 2 rows; a zero
std gives `scale = 0`, invalid for `scipy.stats.norm.cdf`, which yields NaN),
or the triple (n_obs, loc, scale²) passed to the normal CDF. -/
inductive CdfVal : Type
  | nan : CdfVal
  | val (n_obs loc scale2 : ℚ) : CdfVal
deriving DecidableEq, Repr

/-- The mean of the historical series (`describe()["mean"]`). -/
def sampleMean (h : List ℚ) : ℚ := h.sum / (h.length : ℚ)

/-- The square of the sample standard deviation (`describe()["std"]`, pandas
default `ddof=1`). -/
def sampleVar (h : List ℚ) : ℚ :=
  (h.map (fun x => (x - sampleMean h) ^ 2)).sum / ((h.length : ℚ) - 1)

/-- `StatsBuilder.calculate_cdf_pct`: scales the historical mean by `days`
and the std by `sqrt(days)` and hands them to the normal CDF; with fewer than 2
historical days the std is NaN, and with zero variance the scale is 0: both
degenerate branches silently produce NaN, no exception is raised. -/
def calculate_cdf_pct (history : List ℚ) (n_obs : ℚ) (days : ℚ) : CdfVal :=
  if history.length < 2 then CdfVal.nan
  else if sampleVar history = 0 then CdfVal.nan
  else CdfVal.val n_obs (days * sampleMean history) (days * sampleVar history)

/-! Supporting lemmas. -/

theorem shuffleGo_length {α : Type} :
    ∀ (fuel s : ℕ) (l : List α), ((shuffleGo fuel s l).1).length = l.length := by
  intro fuel
  induction fuel with
  | zero => intro s l; rfl
  | succ fuel ih =>
      intro s l
      cases l with
      | nil => rfl
      | cons a as =>
          have hlt : rngNext s % (a :: as).length < (a :: as).length :=
            Nat.mod_lt _ (by simp)
          simp only [shuffleGo]
          rw [List.length_cons, ih]
          exact List.length_eraseIdx_add_one hlt

theorem shuffle_length {α : Type} (s : ℕ) (l : List α) :
    ((shuffle s l).1).length = l.length :=
  shuffleGo_length l.length s l

theorem applyUpdates_nil (store : List Record) (grp : String) :
    applyUpdates store [] grp = (store, 0, 0) := rfl

/-- C1: on the cohort of `n ≥ 0` eligible records selected by
`_assign_groups_for_date` (created within the day, quiz incomplete), the
control half has size `⌊n/2⌋`, the treatment half size `⌈n/2⌉`, the two sizes
sum to `n` (so they differ by 0 or 1), and an empty cohort yields empty
halves, zero modifications and an unchanged store, without error. -/
theorem assign_groups_cohort_split (date : ℤ) (st : ExpState) :
    (assign_groups_for_date date st).1.control_size
        = (st.store.filter (eligibleQuery date)).length / 2 ∧
    (assign_groups_for_date date st).1.treatment_size
        = ((st.store.filter (eligibleQuery date)).length + 1) / 2 ∧
    (assign_groups_for_date date st).1.control_size
        + (assign_groups_for_date date st).1.treatment_size
        = (st.store.filter (eligibleQuery date)).length ∧
    ((assign_groups_for_date date st).1.treatment_size
        - (assign_groups_for_date date st).1.control_size = 0 ∨
      (assign_groups_for_date date st).1.treatment_size
        - (assign_groups_for_date date st).1.control_size = 1) ∧
    ((st.store.filter (eligibleQuery date)).length = 0 →
      (assign_groups_for_date date st).1 = ⟨0, 0, 0, 0⟩ ∧
      (assign_groups_for_date date st).2.store = st.store) := by
  have hs := shuffle_length st.rng (st.store.filter (eligibleQuery date))
  have hc : (assign_groups_for_date date st).1.control_size
      = (st.store.filter (eligibleQuery date)).length / 2 := by
    simp only [assign_groups_for_date]
    rw [List.length_take, hs]
    exact Nat.min_eq_left (Nat.div_le_self _ _)
  have ht : (assign_groups_for_date date st).1.treatment_size
      = ((st.store.filter (eligibleQuery date)).length + 1) / 2 := by
    simp only [assign_groups_for_date]
    rw [List.length_drop, hs]
    omega
  refine ⟨hc, ht, by omega, by omega, ?_⟩
  intro h
  have hnil : st.store.filter (eligibleQuery date) = [] :=
    List.length_eq_zero.mp h
  constructor
  · simp [assign_groups_for_date, hnil, shuffle, shuffleGo, applyUpdates]
  · simp [assign_groups_for_date, hnil, shuffle, shuffleGo, applyUpdates]

/-- Closed witness for C1 at the empty store (empty cohort). -/
theorem assign_groups_cohort_split_witness :
    (assign_groups_for_date 0 ⟨7, []⟩).1 = ⟨0, 0, 0, 0⟩ ∧
    (assign_groups_for_date 0 ⟨7, []⟩).2.store = [] :=
  (assign_groups_cohort_split 0 ⟨7, []⟩).2.2.2.2 (by decide)

/-- C2: with `assignment` set, `run_experiment` first reseeds the global
generator with `seed`, so two invocations with the same `days`, `seed` and
store contents agree on everything — in particular on every applicant's group
— whatever the prior global generator states were. -/
theorem run_experiment_seed_deterministic (days : ℤ) (seed : ℕ) (today : ℤ)
    (store : List Record) (r1 r2 : ℕ) :
    run_experiment days true seed today ⟨r1, store⟩
      = run_experiment days true seed today ⟨r2, store⟩ := rfl

/-- A store invariant maintained by the system: a present `inExperiment` field
is `true`, and `group` is present exactly when `inExperiment` is. -/
def wellFormed (r : Record) : Prop :=
  r.inExperiment = some true ∨ (r.inExperiment = none ∧ r.group = none)

/-- A single record kept by an adversarial caller with `inExperiment := false`:
the reset filter `{"inExperiment": True}` does not match it. -/
def resetDemoStore : List Record :=
  [{ rid := 0, createdAt := 0, admissionsQuiz := "incomplete",
     inExperiment := some false, group := some "g" }]

/-- C3 counterexample: on a store holding a record with `inExperiment = false`
and a `group` value, `reset_database` leaves both fields set, so the claim
that after a reset no record has `in_experiment` or `group` set fails for that
store. -/
theorem reset_database_counterexample :
    ¬ (∀ r ∈ (reset_database resetDemoStore).1,
        r.inExperiment = none ∧ r.group = none) := by decide

/-- C3 (amended): for every store, the second of two consecutive resets
reports `modified = 0`, and after either reset no record has
`inExperiment = true`; under the store invariant `wellFormed` (the states the
system itself produces) no record retains either field after a reset. -/
theorem reset_database_idempotent (store : List Record) :
    (reset_database (reset_database store).1).2.modified = 0 ∧
    (∀ r ∈ (reset_database store).1, r.inExperiment ≠ some true) ∧
    ((∀ r ∈ store, wellFormed r) →
      ∀ r ∈ (reset_database store).1, r.inExperiment = none ∧ r.group = none) := by
  have hne : ∀ r ∈ (reset_database store).1, r.inExperiment ≠ some true := by
    intro r hr
    rcases List.mem_map.mp hr with ⟨r0, _, rfl⟩
    by_cases h : resetMatch r0
    · simp [h, unsetFields]
    · simp only [if_neg h]
      simpa [resetMatch] using h
  refine ⟨?_, hne, ?_⟩
  · have : ∀ r ∈ (reset_database store).1, ¬ (resetMatch r = true) := by
      intro r hr
      simpa [resetMatch] using hne r hr
    simpa [reset_database] using List.countP_eq_zero.mpr this
  · intro hwf r hr
    rcases List.mem_map.mp hr with ⟨r0, hr0, rfl⟩
    by_cases h : resetMatch r0
    · simp [h, unsetFields]
    · simp only [if_neg h]
      rcases hwf r0 hr0 with h1 | h1
      · exact absurd (by simp [resetMatch, h1]) h
      · exact h1

/-- Closed witness for C3: on a store with one assigned record, the second
reset modifies nothing and both fields are cleared by the first reset. -/
theorem reset_database_idempotent_witness :
    (reset_database (reset_database
        [{ rid := 0, createdAt := 0, admissionsQuiz := "incomplete",
           inExperiment := some true, group := some ctrlLabel }]).1).2.modified = 0 ∧
    ∀ r ∈ (reset_database
        [{ rid := 0, createdAt := 0, admissionsQuiz := "incomplete",
           inExperiment := some true, group := some ctrlLabel }]).1,
      r.inExperiment = none ∧ r.group = none :=
  ⟨(reset_database_idempotent _).1,
   (reset_database_idempotent _).2.2 (by
      intro r hr
      simp only [List.mem_singleton] at hr
      subst hr
      exact Or.inl rfl)⟩

/-- C7: for `days ≤ 0` the per-day loop never runs, and `run_experiment`
returns a normal result — empty daily results, `total_assigned = 0`, store
untouched — rather than failing with a distinguishable error kind. -/
theorem run_experiment_nonpositive_days (days : ℤ) (h : days ≤ 0)
    (assignment : Bool) (seed : ℕ) (today : ℤ) (st : ExpState) :
    (run_experiment days assignment seed today st).1.daily_results = [] ∧
    (run_experiment days assignment seed today st).1.total_assigned = 0 ∧
    (run_experiment days assignment seed today st).2.store = st.store := by
  have h0 : days.toNat = 0 := Int.toNat_of_nonpos h
  cases assignment <;>
    simp [run_experiment, dateRange, h0]

/-- Closed witness for C7 at `days = 0`. -/
theorem run_experiment_nonpositive_days_witness :
    (run_experiment 0 true 42 5 ⟨0, []⟩).1.daily_results = [] ∧
    (run_experiment 0 true 42 5 ⟨0, []⟩).1.total_assigned = 0 ∧
    (run_experiment 0 true 42 5 ⟨0, []⟩).2.store = [] :=
  run_experiment_nonpositive_days 0 (by decide) true 42 5 ⟨0, []⟩

/-- C8: `_calculate_experiment_stats` reports, for each group, the completion
rate `completed/total` when `total > 0` and `0` when `total = 0`, and the
difference treatment rate − control rate; no division by zero is performed. -/
theorem calculate_experiment_stats_rate_safety (store : List Record) :
    ((calculate_experiment_stats store).control_group.total = 0 →
      (calculate_experiment_stats store).control_group.completion_rate = 0) ∧
    (0 < (calculate_experiment_stats store).control_group.total →
      (calculate_experiment_stats store).control_group.completion_rate
        = ((calculate_experiment_stats store).control_group.completed : ℚ)
          / ((calculate_experiment_stats store).control_group.total : ℚ)) ∧
    ((calculate_experiment_stats store).treatment_group.total = 0 →
      (calculate_experiment_stats store).treatment_group.completion_rate = 0) ∧
    (0 < (calculate_experiment_stats store).treatment_group.total →
      (calculate_experiment_stats store).treatment_group.completion_rate
        = ((calculate_experiment_stats store).treatment_group.completed : ℚ)
          / ((calculate_experiment_stats store).treatment_group.total : ℚ)) ∧
    (calculate_experiment_stats store).difference
      = (calculate_experiment_stats store).treatment_group.completion_rate
        - (calculate_experiment_stats store).control_group.completion_rate := by
  refine ⟨fun h => ?_, fun h => ?_, fun h => ?_, fun h => ?_, rfl⟩ <;>
  · simp only [calculate_experiment_stats] at h ⊢
    simp [h]

/-- Closed witness for C8: control group empty (rate 0), treatment group of
one completed record (rate 1/1). -/
theorem calculate_experiment_stats_rate_safety_witness :
    (calculate_experiment_stats
        [{ rid := 0, createdAt := 0, admissionsQuiz := "complete",
           inExperiment := some true, group := some trmtLabel }]).control_group.completion_rate
      = 0 ∧
    (calculate_experiment_stats
        [{ rid := 0, createdAt := 0, admissionsQuiz := "complete",
           inExperiment := some true, group := some trmtLabel }]).treatment_group.completion_rate
      = ((calculate_experiment_stats
          [{ rid := 0, createdAt := 0, admissionsQuiz := "complete",
             inExperiment := some true, group := some trmtLabel }]).treatment_group.completed : ℚ)
        / ((calculate_experiment_stats
          [{ rid := 0, createdAt := 0, admissionsQuiz := "complete",
             inExperiment := some true, group := some trmtLabel }]).treatment_group.total : ℚ) :=
  ⟨(calculate_experiment_stats_rate_safety _).1 (by decide),
   (calculate_experiment_stats_rate_safety _).2.2.2.1 (by decide)⟩

theorem runStep_count (st : ExpState) (acc : List (ℤ × DayResult)) (d : ℤ) :
    runStep false (acc, st) d
      = (acc ++ [(d, DayResult.counted (st.store.countP (eligibleQuery d)))], st) := rfl

theorem foldl_runStep_count (dates : List ℤ) (st : ExpState)
    (acc : List (ℤ × DayResult)) :
    dates.foldl (runStep false) (acc, st)
      = (acc ++ dates.map
          (fun d => (d, DayResult.counted (st.store.countP (eligibleQuery d)))), st) := by
  induction dates generalizing acc with
  | nil => simp
  | cons d ds ih =>
      rw [List.foldl_cons, runStep_count, ih]
      simp

/-- C10: with `assignment = False`, every per-day dictionary stores its value
under the key `count`, while `total_assigned` sums the key `n` with default 0;
so the reported total is 0 regardless of the per-day counts, and the store is
untouched. -/
theorem run_experiment_count_mode_total_zero (days : ℤ) (seed : ℕ) (today : ℤ)
    (st : ExpState) :
    (run_experiment days false seed today st).1.total_assigned = 0 ∧
    (run_experiment days false seed today st).1.daily_results
      = (dateRange today days).map
          (fun d => (d, DayResult.counted (st.store.countP (eligibleQuery d)))) ∧
    (run_experiment days false seed today st).2 = st := by
  have hsum : ∀ ds : List ℤ,
      ((ds.map
        (fun d => (d, DayResult.counted (st.store.countP (eligibleQuery d))))).map
          (fun p => p.2.getN)).sum = 0 := by
    intro ds
    induction ds with
    | nil => rfl
    | cons d ds ih => simpa [DayResult.getN] using ih
  refine ⟨?_, ?_, ?_⟩
  · simp only [run_experiment, foldl_runStep_count, List.nil_append]
    exact hsum _
  · simp [run_experiment, foldl_runStep_count, List.nil_append]
  · simp [run_experiment, foldl_runStep_count]

/-! Re-running assignment over an already-assigned date (C4). -/

/-- The group of the record with the given id, if any. -/
def findGroup (store : List Record) (rid : ℕ) : Option String :=
  (store.find? (fun r => r.rid == rid)).bind (fun r => r.group)

/-- Two incomplete-quiz applicants created on day 0, not yet assigned. -/
def c4Store : List Record :=
  [⟨0, 0, "incomplete", none, none⟩, ⟨1, 0, "incomplete", none, none⟩]

/-- The store after one seeded assignment run over day 0. -/
def c4AfterFirst : List Record :=
  (run_experiment 1 true 0 1 ⟨0, c4Store⟩).2.store

/-- The store after a second assignment run over the same day with a different
seed and no intervening reset. -/
def c4AfterSecond : List Record :=
  (run_experiment 1 true 1 1 ⟨0, c4AfterFirst⟩).2.store

/-- C4 evaluated at the failing input: the selection query filters only on
`createdAt` and `admissionsQuiz`, so the second run re-selects the two
already-assigned records and record 0's group is overwritten from treatment
to control. -/
theorem rerun_assignment_overwrites_group :
    findGroup c4AfterFirst 0 = some trmtLabel ∧
    findGroup c4AfterSecond 0 = some ctrlLabel ∧
    findGroup c4AfterFirst 0 ≠ findGroup c4AfterSecond 0 := by decide

/-! Degenerate contingency tables (C5, C9). -/

/-- An experiment state in which no assigned record completed the quiz: the
degenerate case of the contingency table. -/
def degStore : List Record :=
  [⟨0, 0, "incomplete", some true, some ctrlLabel⟩,
   ⟨1, 0, "incomplete", some true, some trmtLabel⟩]

/-- C5 evaluated on a degenerate table: with zero `"completed"` rows in the
store, `get_contingency_table` does not signal an insufficient-data condition;
it silently returns a table whose `"completed"` column counts (2 for control,
1 for treatment) come entirely from 3 fabricated rows. -/
theorem degenerate_table_fabricated :
    degStore.countP (fun r => r.admissionsQuiz == "completed") = 0 ∧
    (get_contingency_df degStore).isSome = true ∧
    ((get_contingency_df degStore).getD []).countP
        (fun r => r.admissionsQuiz == "completed") = 3 ∧
    crosstab ((get_contingency_df degStore).getD []) ctrlLabel "completed" = 2 ∧
    crosstab ((get_contingency_df degStore).getD []) trmtLabel "completed" = 1 := by
  decide

/-- C9: assignment and statistics use the statuses `"complete"` and
`"incomplete"`, but the table builder tests for `"completed"`; hence whenever
at least one assigned record survives the frame construction, the synthetic
branch fires and the returned frame is the real frame plus at least 3
fabricated rows — each a copy of a real row with status `"completed"` — so
the crosstab always carries a fabricated `"completed"` column. -/
theorem get_contingency_df_always_fabricates (store : List Record)
    (hq : ∀ r ∈ store,
      r.admissionsQuiz = "complete" ∨ r.admissionsQuiz = "incomplete")
    (hne : ctFilter store ≠ []) :
    get_contingency_df store
      = some (ctFilter store
          ++ ctNewRows (ctFilter store) (ctFilter store).headI) ∧
    3 ≤ (ctNewRows (ctFilter store) (ctFilter store).headI).length ∧
    (∀ r ∈ ctNewRows (ctFilter store) (ctFilter store).headI,
      r.admissionsQuiz = "completed" ∧
      ∃ r0 ∈ ctFilter store, r = { r0 with admissionsQuiz := "completed" }) ∧
    (ctFilter store
        ++ ctNewRows (ctFilter store) (ctFilter store).headI).countP
        (fun r => r.admissionsQuiz == "completed")
      = (ctNewRows (ctFilter store) (ctFilter store).headI).length := by
  have hdf : ∀ r ∈ ctFilter store, r.admissionsQuiz ≠ "completed" := by
    intro r hr
    have hrs : r ∈ store :=
      List.mem_of_mem_filter (List.mem_of_mem_filter hr)
    rcases hq r hrs with h | h <;> simp [h]
  have hnotin : "completed" ∉ (ctFilter store).map (fun r => r.admissionsQuiz) := by
    intro hmem
    rcases List.mem_map.mp hmem with ⟨r, hr, hq'⟩
    exact hdf r hr hq'
  have hnotempty : (ctFilter store).isEmpty = false := by
    cases h : ctFilter store with
    | nil => exact absurd h hne
    | cons a l => rfl
  have hmain : get_contingency_df store
      = some (ctFilter store
          ++ ctNewRows (ctFilter store) (ctFilter store).headI) := by
    simp [get_contingency_df, hnotempty, hnotin]
  have hmem : ∀ r ∈ ctNewRows (ctFilter store) (ctFilter store).headI,
      r.admissionsQuiz = "completed" ∧
      ∃ r1 ∈ ctFilter store, r = { r1 with admissionsQuiz := "completed" } := by
    intro r hr
    rcases List.mem_append.mp (by simpa only [ctNewRows] using hr) with hb | hrep
    · rcases List.mem_filterMap.mp (by simpa only [ctBaseRows] using hb)
        with ⟨g, _, hfg⟩
      rcases Option.map_eq_some'.mp hfg with ⟨r1, hfind, hr1⟩
      exact ⟨by rw [← hr1], r1, List.mem_of_find?_eq_some hfind, hr1.symm⟩
    · have heq := List.eq_of_mem_replicate hrep
      subst heq
      refine ⟨rfl, (ctFilter store).headI, ?_, rfl⟩
      cases h : ctFilter store with
      | nil => exact absurd h hne
      | cons a l => exact List.mem_cons_self a l
  have hlen : 3 ≤ (ctNewRows (ctFilter store) (ctFilter store).headI).length := by
    simp only [ctNewRows, List.length_append, List.length_replicate]
    omega
  have hcount : (ctFilter store
        ++ ctNewRows (ctFilter store) (ctFilter store).headI).countP
        (fun r => r.admissionsQuiz == "completed")
      = (ctNewRows (ctFilter store) (ctFilter store).headI).length := by
    rw [List.countP_append]
    have h1 : (ctFilter store).countP
        (fun r => r.admissionsQuiz == "completed") = 0 :=
      List.countP_eq_zero.mpr (by
        intro r hr
        simpa using hdf r hr)
    have h2 : (ctNewRows (ctFilter store) (ctFilter store).headI).countP
        (fun r => r.admissionsQuiz == "completed")
        = (ctNewRows (ctFilter store) (ctFilter store).headI).length :=
      List.countP_eq_length.mpr (by
        intro r hr
        simpa using (hmem r hr).1)
    rw [h1, h2, Nat.zero_add]
  exact ⟨hmain, hlen, hmem, hcount⟩

/-- A store holding one genuinely complete and one incomplete assigned
applicant: even here the fabrication branch fires (`"complete"` is not the
string the builder tests for). -/
def ctDemoStore : List Record :=
  [⟨0, 0, "complete", some true, some ctrlLabel⟩,
   ⟨1, 0, "incomplete", some true, some trmtLabel⟩]

/-- Closed witness for C9 on a store that does contain a genuinely complete
record. -/
theorem get_contingency_df_always_fabricates_witness :
    get_contingency_df ctDemoStore
      = some (ctFilter ctDemoStore
          ++ ctNewRows (ctFilter ctDemoStore) (ctFilter ctDemoStore).headI) ∧
    3 ≤ (ctNewRows (ctFilter ctDemoStore) (ctFilter ctDemoStore).headI).length :=
  ⟨(get_contingency_df_always_fabricates ctDemoStore (by decide) (by decide)).1,
   (get_contingency_df_always_fabricates ctDemoStore (by decide) (by decide)).2.1⟩

/-- C6: with fewer than 2 historical days the sample standard deviation is
undefined (pandas yields NaN) and `calculate_cdf_pct` silently returns NaN —
it raises no `InsufficientHistory` (or any other) error. -/
theorem calculate_cdf_pct_nan_on_short_history (history : List ℚ)
    (n_obs days : ℚ) (h : history.length < 2) :
    calculate_cdf_pct history n_obs days = CdfVal.nan := by
  simp [calculate_cdf_pct, h]

/-- Closed witness for C6: a single historical day. -/
theorem calculate_cdf_pct_nan_on_short_history_witness :
    calculate_cdf_pct [5] 10 7 = CdfVal.nan :=
  calculate_cdf_pct_nan_on_short_history [5] 10 7 (by decide)

end ABTest
